import Mathlib

/-!
Shallow embedding of the frame-bounded zstd compressor (src/rpm/compressor.rs),
the cpio header alignment helper (encodio/mk.rs) and the encoded payload
installer loop (encodio/inst.rs).

Bytes are modelled as `Nat`, byte buffers as `List Nat`.  A Rust `panic`
(failed `assert!`, or `chunks_exact(0)`) is modelled by the `Ran.abort`
outcome; normal returns by `Ran.ok`.

External library boundaries are modelled by their documented contracts:
a zstd frame emitted by `ZSTD_compressStream2(.., ZSTD_e_end)` is a
self-contained unit that decompresses back to exactly the input chunk it
was built from, so a frame is represented by the chunk of input bytes it
encodes (`ZFrame`).  On the installer side the zstd scanning functions
(`find_frame_compressed_size`, `get_frame_content_size`) and the frame
decompression result are inputs of the model (`FrameInfo`), as is the
kernel's reply to each encoded-write ioctl (`kern`).
-/

/-- Outcome of running a piece of Rust code: a normal return carrying a
value, or a process abort (a failed `assert!` / library panic). -/
inductive Ran (α : Type) where
  | ok (a : α) : Ran α
  | abort : Ran α
deriving Repr, DecidableEq

/-- One emitted zstd frame.  The compressor enables `ContentSizeFlag` and
ends every `compress2` call with `ZSTD_e_end`, so each frame is an
independently decodable unit whose embedded content size equals the length
of `content`, and decompressing the frame yields `content` back. -/
structure ZFrame where
  content : List Nat
deriving Repr, DecidableEq

/-- State of `CompressorZstd` (compressor.rs): the pending input buffer,
the emitted output (modelled as the list of emitted frames, in order, in
place of their concatenated compressed bytes) and the configured maximum
uncompressed content per frame. -/
structure CompressorZstd where
  inbuf : List Nat
  outbuf : List ZFrame
  frame_max_content : Nat
deriving Repr, DecidableEq

/-- Rust's `slice::chunks_exact(n)`: the list of complete `n`-sized chunks
in order, paired with the remainder of length `< n`.  The Rust iterator
panics when `n = 0`; callers of this model must handle `n = 0` before
calling (as the embedding of `write_zstd_frames` does). -/
def chunksExact (n : Nat) (l : List Nat) : List (List Nat) × List Nat :=
  if _h : 0 < n ∧ n ≤ l.length then
    let rest := chunksExact n (l.drop n)
    (l.take n :: rest.1, rest.2)
  else
    ([], l)
termination_by l.length
decreasing_by simp only [List.length_drop]; omega

/-- Embedding of `write_zstd_frames` (compressor.rs lines 86-122).
Order of effects follows the source: the `assert!(frame_max <=
cz.frame_max_content)` first, then the input is appended to `inbuf`, then
`chunks_exact(frame_max)` (which panics when `frame_max = 0`), each
complete chunk is compressed as one frame appended to the output, and the
remainder becomes the new `inbuf`.  `compress2` into a buffer of capacity
`compress_bound(frame_max)` cannot fail by the zstd contract, so the
`Err` branch of the source is unreachable in the model.  Returns `iolen`,
the length of `content`. -/
def write_zstd_frames (cz : CompressorZstd) (content : List Nat)
    (frame_max : Nat) : Ran (CompressorZstd × Nat) :=
  let iolen := content.length
  if frame_max ≤ cz.frame_max_content then
    let inbuf1 := cz.inbuf ++ content
    if frame_max = 0 then
      .abort
    else
      let cr := chunksExact frame_max inbuf1
      .ok ({ cz with
              inbuf := cr.2,
              outbuf := cz.outbuf ++ cr.1.map (fun c => ⟨c⟩) },
           iolen)
  else
    .abort

/-- The `Compressor::Zstd` arm of `Write::write` (compressor.rs lines
129-133): `assert!(cz.frame_max_content > 0)`, then
`write_zstd_frames(cz, content, cz.frame_max_content)`. -/
def zstdWrite (cz : CompressorZstd) (content : List Nat) :
    Ran (CompressorZstd × Nat) :=
  if cz.frame_max_content = 0 then
    .abort
  else
    write_zstd_frames cz content cz.frame_max_content

/-- The `Compressor::Zstd` arm of `Write::flush` (compressor.rs lines
142-151): `assert!(cz.frame_max_content > 0)`, then
`write_zstd_frames(cz, &[], cz.inbuf.len())`, discarding the returned
length. -/
def zstdFlush (cz : CompressorZstd) : Ran CompressorZstd :=
  if cz.frame_max_content = 0 then
    .abort
  else
    match write_zstd_frames cz [] cz.inbuf.length with
    | .abort => .abort
    | .ok (cz1, _) => .ok cz1

/-- Error type of the crate (`crate::errors`), restricted to the variant
the embedded functions construct. -/
inductive Error where
  | UnknownCompressorType (msg : String)
deriving Repr, DecidableEq

/-- The `Compressor` enum (compressor.rs lines 37-43).  The three generic
encoders (`Gzip`, `Xz`, `Bzip2`) wrap external library state that none of
the embedded operations inspect, so their state is opaque; the `None`
variant wraps its plain output `Vec<u8>`. -/
inductive Compressor where
  | None (data : List Nat)
  | Gzip (enc : Unit)
  | Zstd (cz : CompressorZstd)
  | Xz (enc : Unit)
  | Bzip2 (enc : Unit)
deriving Repr, DecidableEq

/-- Embedding of `Write::write` for `Compressor` (compressor.rs lines
125-137).  `Vec::write` appends all bytes and returns their count; the
generic external encoders consume all bytes into their opaque state. -/
def Compressor.write : Compressor → List Nat → Ran (Compressor × Nat)
  | .None data, content => .ok (.None (data ++ content), content.length)
  | .Gzip e, content => .ok (.Gzip e, content.length)
  | .Zstd cz, content =>
      match zstdWrite cz content with
      | .abort => .abort
      | .ok (cz1, n) => .ok (.Zstd cz1, n)
  | .Xz e, content => .ok (.Xz e, content.length)
  | .Bzip2 e, content => .ok (.Bzip2 e, content.length)

/-- Embedding of `Write::flush` for `Compressor` (compressor.rs lines
138-155).  Flushing a `Vec` or a generic external encoder succeeds. -/
def Compressor.flush : Compressor → Ran Compressor
  | .None data => .ok (.None data)
  | .Gzip e => .ok (.Gzip e)
  | .Zstd cz =>
      match zstdFlush cz with
      | .abort => .abort
      | .ok cz1 => .ok (.Zstd cz1)
  | .Xz e => .ok (.Xz e)
  | .Bzip2 e => .ok (.Bzip2 e)

/-- Embedding of `Compressor::set_frame_content_limit` (compressor.rs
lines 177-192).  The source takes `self` BY VALUE: in the `Zstd` arm it
asserts the pending input buffer is empty, assigns
`cz.frame_max_content = max` on the moved-in copy, and returns `Ok(())`,
at which point the modified copy is dropped — the codomain carries no
compressor, exactly as the source signature `fn(self, usize) ->
Result<(), Error>` does.  Every other variant returns the
`UnknownCompressorType("set_frame_content_limit not supported")` error. -/
def set_frame_content_limit (c : Compressor) (max : Nat) :
    Ran (Except Error Unit) :=
  match c with
  | .Zstd cz =>
      if cz.inbuf.length = 0 then
        let _cz1 : CompressorZstd := { cz with frame_max_content := max }
        .ok (.ok ())
      else
        .abort
  | _ => .ok (.error (.UnknownCompressorType
      "set_frame_content_limit not supported"))

/-- A fresh zstd compressor state with frame limit `m` and empty
buffers (the state produced by `TryFrom<CompressionWithLevel>` has
`m = 128 * 1024`; `m` is kept general to cover every frame-size limit). -/
def zstdNew (m : Nat) : CompressorZstd :=
  { inbuf := [], outbuf := [], frame_max_content := m }

/-- Feeding a list of `write` calls to a zstd compressor in order,
stopping at the first abort. -/
def runWrites (cz : CompressorZstd) : List (List Nat) → Ran CompressorZstd
  | [] => .ok cz
  | c :: cs =>
      match zstdWrite cz c with
      | .abort => .abort
      | .ok (cz1, _) => runWrites cz1 cs

/-- Decompressing a concatenation of zstd frames in stream order yields
the concatenation of the frames' contents (zstd contract: each frame is
independently decodable and carries its exact content). -/
def decompressFrames (fs : List ZFrame) : List Nat :=
  (fs.map ZFrame.content).flatten

/-- The frames emitted after the final `flush`, as far as execution gets:
when `flush` returns normally these are the flushed state's frames; when
`flush` aborts (it dies inside `chunks_exact(0)` before compressing or
emitting anything, which happens exactly when the pending buffer is
empty) the emitted frames are those already in the output buffer. -/
def emittedAfterFlush (cz : CompressorZstd) : List Nat :=
  match zstdFlush cz with
  | .abort => decompressFrames cz.outbuf
  | .ok cz1 => decompressFrames cz1.outbuf

/-- Embedding of `archive_padlen` (mk.rs lines 21-23):
`(alignment - (off & (alignment - 1))) % alignment`.  The bitwise AND is
kept as in the source; `off & (alignment - 1) <= alignment - 1` so the
`usize` subtraction cannot underflow and agrees with `Nat` subtraction. -/
def archive_padlen (off alignment : Nat) : Nat :=
  (alignment - (off &&& (alignment - 1))) % alignment

/-- `NEWC_DATA_ALIGN_GOAL` (mk.rs line 26). -/
def NEWC_DATA_ALIGN_GOAL : Nat := 4096

/-- `NEWC_HDR_LEN` (mk.rs line 28). -/
def NEWC_HDR_LEN : Nat := 110

/-- Embedding of `hdr_fname_align` (mk.rs lines 29-44).  The path is its
byte sequence (`path.len()` on a Rust `&str` counts bytes); the returned
string is the path bytes followed by `padlen` NUL bytes.  When
`NEWC_HDR_LEN + path.len() + 1 > NEWC_DATA_ALIGN_GOAL` the path is
returned unmodified. -/
def hdr_fname_align (path : List Nat) : List Nat :=
  let cur_dataoff := NEWC_HDR_LEN + path.length + 1
  if cur_dataoff > NEWC_DATA_ALIGN_GOAL then
    path
  else
    let padlen := archive_padlen cur_dataoff NEWC_DATA_ALIGN_GOAL
    path ++ List.replicate padlen 0

/-- `BTRFS_MAX_COMPRESSED` (inst.rs line 68). -/
def BTRFS_MAX_COMPRESSED : Nat := 128 * 1024

/-- `BTRFS_MAX_UNCOMPRESSED` (inst.rs line 69). -/
def BTRFS_MAX_UNCOMPRESSED : Nat := 128 * 1024

/-- `BTRFS_MIN_UNCOMPRESSED` (inst.rs line 72). -/
def BTRFS_MIN_UNCOMPRESSED : Nat := 4096

/-- What the zstd library reports about one frame found in the payload
buffer, at the position the installer's scan reaches it (inst.rs uses
`find_frame_compressed_size`, `get_frame_content_size` and `decompress`
on the buffer suffix; their results are inputs of the model):
`clen` is the frame's compressed size found by scanning its header;
`csize` is the `get_frame_content_size` result — `Except.error` for
`ZSTD_CONTENTSIZE_ERROR`, `.ok Option.none` for
`ZSTD_CONTENTSIZE_UNKNOWN` (content size not embedded), `.ok (some n)`
for an embedded size `n`; `dres` is what `zstd_safe::decompress` of the
frame body into a buffer of capacity `uncompressed_sz` returns —
`.error` if decompression fails, `.ok bytes` with the decompressed
bytes otherwise. -/
structure FrameInfo where
  clen : Nat
  csize : Except Unit (Option Nat)
  dres : Except Unit (List Nat)
deriving Repr

/-- Error exits of `encoded_copy_payload`, one per `return Err(..)` site
(inst.rs): `frameSizeScan` for a failing `find_frame_compressed_size`,
`contentSize` for a failing `get_frame_content_size`, `truncated` for
"zstd frame larger than remaining buffer", `decompressFail` for a failing
`decompress` in the fallback, `osError` for an ioctl returning `-1`, and
`writeLenMismatch` for "encoded write unexpected length". -/
inductive ErrKind where
  | frameSizeScan
  | contentSize
  | truncated
  | decompressFail
  | osError
  | writeLenMismatch
deriving Repr, DecidableEq

/-- One write issued to the destination file: a positioned plain write
(`write_all_at` in `decompress_fallback`) or an encoded-write ioctl that
the kernel accepted, recorded with its destination offset, compressed
length and declared uncompressed length. -/
inductive WriteOp where
  | plainAt (off : Nat) (bytes : List Nat)
  | encodedAt (off : Nat) (clen usz : Nat)
deriving Repr, DecidableEq

/-- Result of `encoded_copy_payload`: `ok` with the ordered log of writes
issued to the destination, `err` with the error kind, the log, and the
values of the offset accumulators (`remaining`, `data_off`,
`uncompressed_off`) at the moment of the error return, or `abort` for a
panic (failed `assert!` or an explicit `panic!()` arm). -/
inductive InstResult where
  | ok (log : List WriteOp)
  | err (e : ErrKind) (log : List WriteOp) (remaining dataOff uoff : Nat)
  | abort
deriving Repr, DecidableEq

/-- Embedding of the `while remaining > 0` loop of `encoded_copy_payload`
(inst.rs lines 100-191), one recursive step per frame.  `frames` is the
sequence of frames the zstd scan finds at successive positions of the
buffer (an empty list while `remaining > 0` means the scan fails:
`find_frame_compressed_size` errors).  `kern` gives the kernel's reply to
the `cidx`-th encoded-write ioctl (`-1` for failure with `errno`, else
the byte count).  The branch order follows the source: content-size probe,
truncation check, the two `panic!("TODO: decompress and write")` guards,
the small-frame fallback (`decompress_fallback`, inst.rs lines 74-91,
inlined: failing decompress returns the error, `assert!(l ==
uncompressed_sz)` aborts on mismatch, then `write_all_at(froutbuf,
uncompressed_off)`), then the ioctl, and finally the accumulator
advance. -/
def encLoop (kern : Nat → Int) (frames : List FrameInfo)
    (remaining dataOff uoff cidx : Nat) (log : List WriteOp) : InstResult :=
  if remaining = 0 then
    .ok log
  else
    match frames with
    | [] => .err .frameSizeScan log remaining dataOff uoff
    | f :: rest =>
      match f.csize with
      | .error _ => .err .contentSize log remaining dataOff uoff
      | .ok s =>
        let usz := s.getD 0
        if f.clen > remaining then
          .err .truncated log remaining dataOff uoff
        else if f.clen > BTRFS_MAX_COMPRESSED then
          .abort
        else if usz > BTRFS_MAX_UNCOMPRESSED then
          .abort
        else if usz < BTRFS_MIN_UNCOMPRESSED then
          match f.dres with
          | .error _ => .err .decompressFail log remaining dataOff uoff
          | .ok bytes =>
            if bytes.length = usz then
              encLoop kern rest (remaining - f.clen) (dataOff + f.clen)
                (uoff + usz) cidx (log ++ [.plainAt uoff bytes])
            else
              .abort
        else
          let v := kern cidx
          if v = -1 then
            .err .osError log remaining dataOff uoff
          else if v ≠ (f.clen : Int) then
            .err .writeLenMismatch log remaining dataOff uoff
          else
            encLoop kern rest (remaining - f.clen) (dataOff + f.clen)
              (uoff + usz) (cidx + 1) (log ++ [.encodedAt uoff f.clen usz])

/-- A payload buffer as the installer sees it: the frames the zstd scan
finds at successive offsets, and the total byte length of the buffer
(`src_data.len()`). -/
structure PayloadBuf where
  frames : List FrameInfo
  buflen : Nat
deriving Repr

/-- Embedding of `encoded_copy_payload` (inst.rs lines 93-194):
`remaining = src_data.len()`, `data_off = 0`, `uncompressed_off = 0`,
then the per-frame loop. -/
def encoded_copy_payload (kern : Nat → Int) (buf : PayloadBuf) : InstResult :=
  encLoop kern buf.frames buf.buflen 0 0 0 []


theorem chunksExact_spec (n : Nat) (l : List Nat) :
    (chunksExact n l).1.flatten ++ (chunksExact n l).2 = l ∧
    (∀ c ∈ (chunksExact n l).1, c.length = n) ∧
    (0 < n → (chunksExact n l).2.length < n) := by
  induction l using chunksExact.induct n with
  | case1 x h ih =>
    rw [chunksExact, dif_pos h]
    simp only [List.flatten_cons, List.mem_cons]
    refine ⟨?_, ?_, fun _ => ih.2.2 h.1⟩
    · rw [List.append_assoc, ih.1, List.take_append_drop]
    · rintro c (rfl | hc)
      · simpa using Nat.min_eq_left h.2
      · exact ih.2.1 c hc
  | case2 x h =>
    rw [chunksExact, dif_neg h]
    refine ⟨by simp, by simp, fun hn => ?_⟩
    rcases Nat.lt_or_ge x.length n with hlt | hge
    · exact hlt
    · exact absurd ⟨hn, hge⟩ h

theorem chunksExact_length_self (l : List Nat) (h : l ≠ []) :
    chunksExact l.length l = ([l], []) := by
  have h0 : 0 < l.length := List.length_pos.mpr h
  rw [chunksExact, dif_pos ⟨h0, le_refl _⟩]
  simp only [List.drop_length, List.take_length]
  rw [chunksExact, dif_neg (by simp only [List.length_nil]; omega)]

theorem zstdWrite_ok (cz : CompressorZstd) (content : List Nat)
    (h : 0 < cz.frame_max_content) :
    zstdWrite cz content =
      .ok ({ cz with
              inbuf := (chunksExact cz.frame_max_content (cz.inbuf ++ content)).2,
              outbuf := cz.outbuf ++
                (chunksExact cz.frame_max_content (cz.inbuf ++ content)).1.map
                  (fun c => ⟨c⟩) },
           content.length) := by
  unfold zstdWrite write_zstd_frames
  rw [if_neg (by omega), if_pos (le_refl _), if_neg (by omega)]

theorem zstdFlush_empty (cz : CompressorZstd) (h : cz.inbuf = []) :
    zstdFlush cz = .abort := by
  by_cases hf : cz.frame_max_content = 0
  · simp [zstdFlush, hf]
  · simp [zstdFlush, write_zstd_frames, h, hf]

theorem zstdFlush_ok (cz : CompressorZstd) (h1 : cz.inbuf ≠ [])
    (h2 : cz.inbuf.length ≤ cz.frame_max_content) :
    zstdFlush cz =
      .ok { cz with inbuf := [], outbuf := cz.outbuf ++ [⟨cz.inbuf⟩] } := by
  have h0 : 0 < cz.inbuf.length := List.length_pos.mpr h1
  unfold zstdFlush write_zstd_frames
  rw [if_neg (by omega), if_pos h2, if_neg (by omega)]
  simp only [List.append_nil, chunksExact_length_self cz.inbuf h1, List.map_cons,
    List.map_nil]

/-- Claim C7: a `write` call on the zstd compressor appends the input
bytes to the pending-input buffer, compresses and emits every complete
`frame_max_content`-sized chunk of the resulting buffer as one frame
(each emitted frame covers exactly `frame_max_content` input bytes), keeps
the remainder — of length less than `frame_max_content` — buffered for the
next call, and returns the full length of the input. -/
theorem c7_write_buffers_and_emits_full_chunks
    (cz : CompressorZstd) (content : List Nat)
    (h : 0 < cz.frame_max_content) :
    ∃ cz1 newFrames,
      Compressor.write (.Zstd cz) content = .ok (.Zstd cz1, content.length) ∧
      cz1.frame_max_content = cz.frame_max_content ∧
      cz1.outbuf = cz.outbuf ++ newFrames ∧
      (∀ f ∈ newFrames, f.content.length = cz.frame_max_content) ∧
      (newFrames.map ZFrame.content).flatten ++ cz1.inbuf =
        cz.inbuf ++ content ∧
      cz1.inbuf.length < cz.frame_max_content := by
  obtain ⟨hjoin, hlen, hrem⟩ := chunksExact_spec cz.frame_max_content (cz.inbuf ++ content)
  refine ⟨{ cz with
        inbuf := (chunksExact cz.frame_max_content (cz.inbuf ++ content)).2,
        outbuf := cz.outbuf ++
          (chunksExact cz.frame_max_content (cz.inbuf ++ content)).1.map
            (fun c => ⟨c⟩) },
    (chunksExact cz.frame_max_content (cz.inbuf ++ content)).1.map (fun c => ⟨c⟩),
    ?_, rfl, rfl, ?_, ?_, hrem h⟩
  · simp only [Compressor.write, zstdWrite_ok cz content h]
  · intro f hf
    simp only [List.mem_map] at hf
    obtain ⟨c, hc, rfl⟩ := hf
    exact hlen c hc
  · have : ((chunksExact cz.frame_max_content (cz.inbuf ++ content)).1.map
        (fun c => (⟨c⟩ : ZFrame))).map ZFrame.content =
        (chunksExact cz.frame_max_content (cz.inbuf ++ content)).1 := by
      rw [List.map_map]
      exact List.map_id _
    rw [this, hjoin]

theorem runWrites_ok (ws : List (List Nat)) : ∀ (cz : CompressorZstd),
    0 < cz.frame_max_content → cz.inbuf.length < cz.frame_max_content →
    ∃ cz1, runWrites cz ws = .ok cz1 ∧
      cz1.frame_max_content = cz.frame_max_content ∧
      cz1.inbuf.length < cz1.frame_max_content ∧
      decompressFrames cz1.outbuf ++ cz1.inbuf =
        decompressFrames cz.outbuf ++ cz.inbuf ++ ws.flatten := by
  induction ws with
  | nil =>
    intro cz h1 h2
    exact ⟨cz, rfl, rfl, h2, by simp⟩
  | cons c cs ih =>
    intro cz h1 h2
    obtain ⟨hjoin, _, hrem⟩ := chunksExact_spec cz.frame_max_content (cz.inbuf ++ c)
    set czm : CompressorZstd :=
      { cz with
          inbuf := (chunksExact cz.frame_max_content (cz.inbuf ++ c)).2,
          outbuf := cz.outbuf ++
            (chunksExact cz.frame_max_content (cz.inbuf ++ c)).1.map
              (fun d => ⟨d⟩) } with hczm
    obtain ⟨cz1, hrun, hfmc, hlen, hout⟩ := ih czm h1 (hrem h1)
    refine ⟨cz1, ?_, hfmc, hlen, ?_⟩
    · simp only [runWrites, zstdWrite_ok cz c h1]
      exact hrun
    · rw [hout]
      have hkey : decompressFrames czm.outbuf ++ czm.inbuf =
          decompressFrames cz.outbuf ++ cz.inbuf ++ c := by
        rw [hczm]
        simp only [decompressFrames, List.map_append, List.flatten_append,
          List.map_map]
        have hid : (chunksExact cz.frame_max_content (cz.inbuf ++ c)).1.map
            (ZFrame.content ∘ fun d => (⟨d⟩ : ZFrame)) =
            (chunksExact cz.frame_max_content (cz.inbuf ++ c)).1 :=
          List.map_id _
        rw [hid, List.append_assoc, hjoin]
        simp [List.append_assoc]
      have := congrArg (· ++ cs.flatten) hkey
      simp only [List.append_assoc] at this ⊢
      simpa [List.append_assoc] using this

/-- Claim C2: round-trip.  For every frame-size limit of at least 1 and
every sequence of `write` calls followed by a `flush`, the writes all
succeed and decompressing the concatenation of all emitted frames in
order reproduces the original input bytes exactly.  (When the pending
buffer is empty at `flush` time the flush itself dies before emitting
anything — claim C10 — but at that point the already-emitted frames
cover the whole input; `emittedAfterFlush` captures both cases.) -/
theorem c2_roundtrip (m : Nat) (hm : 1 ≤ m) (ws : List (List Nat)) :
    ∃ cz, runWrites (zstdNew m) ws = .ok cz ∧
      emittedAfterFlush cz = ws.flatten := by
  obtain ⟨cz, hrun, hfmc, hlen, hout⟩ :=
    runWrites_ok ws (zstdNew m) (by simpa [zstdNew] using hm)
      (by simp [zstdNew]; omega)
  have hout' : decompressFrames cz.outbuf ++ cz.inbuf = ws.flatten := by
    simpa [zstdNew, decompressFrames] using hout
  refine ⟨cz, hrun, ?_⟩
  unfold emittedAfterFlush
  by_cases h : cz.inbuf = []
  · rw [zstdFlush_empty cz h]
    simpa [h] using hout'
  · rw [zstdFlush_ok cz h (by omega)]
    simp only [decompressFrames, List.map_append, List.flatten_append]
    simpa [decompressFrames] using hout'

theorem c2_roundtrip_witness :
    ∃ cz, runWrites (zstdNew 2) [[5, 6, 7]] = .ok cz ∧
      emittedAfterFlush cz = [5, 6, 7] :=
  c2_roundtrip 2 (by decide) [[5, 6, 7]]

/-- Claim C10: calling `flush` on the zstd compressor with an empty
pending-input buffer panics (the flush invokes `write_zstd_frames` with
a frame size of `inbuf.len() = 0`, and `chunks_exact(0)` panics) rather
than being a no-op; with at least one pending byte (and the buffer within
the frame limit, an invariant of the compressor) the flush succeeds and
emits the pending bytes as one final frame. -/
theorem c10_flush_empty_pending_aborts :
    (∀ cz : CompressorZstd, cz.inbuf = [] →
      Compressor.flush (.Zstd cz) = .abort) ∧
    (∀ cz : CompressorZstd, cz.inbuf ≠ [] →
      cz.inbuf.length ≤ cz.frame_max_content →
      Compressor.flush (.Zstd cz) =
        .ok (.Zstd { cz with inbuf := [], outbuf := cz.outbuf ++ [⟨cz.inbuf⟩] })) := by
  constructor
  · intro cz h
    simp only [Compressor.flush, zstdFlush_empty cz h]
  · intro cz h1 h2
    simp only [Compressor.flush, zstdFlush_ok cz h1 h2]

theorem c10_flush_empty_pending_aborts_witness :
    Compressor.flush (.Zstd (zstdNew 131072)) = .abort ∧
    Compressor.flush (.Zstd { inbuf := [9], outbuf := [], frame_max_content := 131072 }) =
      .ok (.Zstd { inbuf := [], outbuf := [⟨[9]⟩], frame_max_content := 131072 }) :=
  ⟨c10_flush_empty_pending_aborts.1 (zstdNew 131072) rfl,
   c10_flush_empty_pending_aborts.2
     { inbuf := [9], outbuf := [], frame_max_content := 131072 }
     (by decide) (by decide)⟩

theorem archive_padlen_4096 (off : Nat) :
    archive_padlen off 4096 = (4096 - off % 4096) % 4096 := by
  have h : off &&& 4095 = off % 4096 := by
    have h12 := Nat.and_pow_two_sub_one_eq_mod off 12
    norm_num at h12
    exact h12
  simp [archive_padlen, h]

/-- Claim C3: for a path of byte length `L`, header length `H = 110` and
`ALIGNMENT = 4096`, if `H + L + 1 <= ALIGNMENT` then `hdr_fname_align`
returns the path with only trailing NUL bytes appended and the padded
length satisfies `(H + padded_len + 1) % ALIGNMENT = 0`; if
`H + L + 1 > ALIGNMENT` the path is returned unmodified. -/
theorem c3_hdr_fname_align
    (path : List Nat) :
    (NEWC_HDR_LEN + path.length + 1 ≤ NEWC_DATA_ALIGN_GOAL →
      (∃ k, hdr_fname_align path = path ++ List.replicate k 0) ∧
      (NEWC_HDR_LEN + (hdr_fname_align path).length + 1) %
        NEWC_DATA_ALIGN_GOAL = 0) ∧
    (NEWC_DATA_ALIGN_GOAL < NEWC_HDR_LEN + path.length + 1 →
      hdr_fname_align path = path) := by
  simp only [hdr_fname_align, NEWC_HDR_LEN, NEWC_DATA_ALIGN_GOAL]
  constructor
  · intro h
    rw [if_neg (by omega)]
    refine ⟨⟨_, rfl⟩, ?_⟩
    rw [List.length_append, List.length_replicate, archive_padlen_4096]
    omega
  · intro h
    rw [if_pos (by omega)]

theorem c3_hdr_fname_align_witness :
    ((∃ k, hdr_fname_align [46, 97] = [46, 97] ++ List.replicate k 0) ∧
      (NEWC_HDR_LEN + (hdr_fname_align [46, 97]).length + 1) %
        NEWC_DATA_ALIGN_GOAL = 0) ∧
    hdr_fname_align (List.replicate 4000 65) = List.replicate 4000 65 :=
  ⟨(c3_hdr_fname_align [46, 97]).1
     (by simp only [NEWC_HDR_LEN, NEWC_DATA_ALIGN_GOAL, List.length_cons,
           List.length_nil]
         omega),
   (c3_hdr_fname_align (List.replicate 4000 65)).2
     (by simp only [NEWC_HDR_LEN, NEWC_DATA_ALIGN_GOAL, List.length_replicate]
         omega)⟩

/-- Claim C8 (code bug): `set_frame_content_limit` on a zstd compressor
with an empty pending buffer returns `Ok(())` no matter which limit is
requested — the source takes `self` by value and drops the modified
copy, so the requested limit is unobservable and can never govern a
subsequent write, contradicting the claim that subsequent writes use the
new limit.  The precondition half of the claim does hold: with a
nonempty pending buffer the call is a panic (programmer error). -/
theorem c8_limit_change_result_independent_of_max :
    set_frame_content_limit (.Zstd (zstdNew (128 * 1024))) 4096 = .ok (.ok ()) ∧
    set_frame_content_limit (.Zstd (zstdNew (128 * 1024))) 1 = .ok (.ok ()) ∧
    set_frame_content_limit
      (.Zstd { inbuf := [7], outbuf := [], frame_max_content := 128 * 1024 })
      4096 = .abort :=
  ⟨rfl, rfl, rfl⟩

/-- Claim C9: calling `set_frame_content_limit` on any non-zstd
compressor variant (`None`, `Gzip`, `Xz`, `Bzip2`) always returns the
unsupported-operation error (`UnknownCompressorType` with message
"set_frame_content_limit not supported") and never succeeds. -/
theorem c9_set_limit_non_zstd_fails (d : List Nat) (e : Unit) (max : Nat) :
    set_frame_content_limit (.None d) max =
      .ok (.error (.UnknownCompressorType "set_frame_content_limit not supported")) ∧
    set_frame_content_limit (.Gzip e) max =
      .ok (.error (.UnknownCompressorType "set_frame_content_limit not supported")) ∧
    set_frame_content_limit (.Xz e) max =
      .ok (.error (.UnknownCompressorType "set_frame_content_limit not supported")) ∧
    set_frame_content_limit (.Bzip2 e) max =
      .ok (.error (.UnknownCompressorType "set_frame_content_limit not supported")) :=
  ⟨rfl, rfl, rfl, rfl⟩

/-- Witness for claim C7 at a concrete compressor (limit 2) and input
`[5, 6, 7]`. -/
theorem c7_write_witness :
    ∃ cz1 newFrames,
      Compressor.write (.Zstd (zstdNew 2)) [5, 6, 7] = .ok (.Zstd cz1, [5, 6, 7].length) ∧
      cz1.frame_max_content = (zstdNew 2).frame_max_content ∧
      cz1.outbuf = (zstdNew 2).outbuf ++ newFrames ∧
      (∀ f ∈ newFrames, f.content.length = (zstdNew 2).frame_max_content) ∧
      (newFrames.map ZFrame.content).flatten ++ cz1.inbuf =
        (zstdNew 2).inbuf ++ [5, 6, 7] ∧
      cz1.inbuf.length < (zstdNew 2).frame_max_content :=
  c7_write_buffers_and_emits_full_chunks (zstdNew 2) [5, 6, 7] (by decide)

/-- Claim C4: when the frame's compressed size found by the scan exceeds
the bytes remaining in the buffer, the installer loop returns the
truncation error with the write log and all three offset accumulators
(`remaining`, `data_off`, `uncompressed_off`) unchanged — no bytes are
written to the destination for that frame. -/
theorem c4_truncated_frame_is_fatal (kern : Nat → Int) (f : FrameInfo)
    (rest : List FrameInfo) (remaining dataOff uoff cidx : Nat)
    (log : List WriteOp) (s : Option Nat)
    (h0 : 0 < remaining) (hs : f.csize = .ok s) (ht : remaining < f.clen) :
    encLoop kern (f :: rest) remaining dataOff uoff cidx log =
      .err .truncated log remaining dataOff uoff := by
  rw [encLoop.eq_2, if_neg (by omega)]
  split
  · next a heq =>
    rw [hs] at heq
    exact Except.noConfusion heq
  · next s2 heq =>
    rw [hs] at heq
    injection heq with h2
    subst h2
    simp only []
    rw [if_pos ht]

/-- Witness for claim C4: a single frame whose declared compressed size
9 exceeds the 5 remaining buffer bytes. -/
theorem c4_truncated_witness :
    encLoop (fun _ => -1)
      [{ clen := 9, csize := .ok (some 5000), dres := .ok [] }] 5 0 0 0 [] =
      .err .truncated [] 5 0 0 :=
  c4_truncated_frame_is_fatal (fun _ => -1)
    { clen := 9, csize := .ok (some 5000), dres := .ok [] } [] 5 0 0 0 []
    (some 5000) (by decide) rfl (by decide)

/-- Claim C5: when the encoded-write ioctl returns a byte count that is
neither `-1` nor equal to the frame's compressed length, the installer
loop returns the length-mismatch error with the write log and the offset
accumulators (`remaining`, `data_off`, `uncompressed_off`) not advanced
for that frame. -/
theorem c5_ioctl_len_mismatch_no_advance (kern : Nat → Int) (f : FrameInfo)
    (rest : List FrameInfo) (remaining dataOff uoff cidx : Nat)
    (log : List WriteOp) (usz : Nat)
    (h0 : 0 < remaining) (hs : f.csize = .ok (some usz))
    (hc1 : f.clen ≤ remaining) (hc2 : f.clen ≤ BTRFS_MAX_COMPRESSED)
    (hu1 : BTRFS_MIN_UNCOMPRESSED ≤ usz) (hu2 : usz ≤ BTRFS_MAX_UNCOMPRESSED)
    (hk1 : kern cidx ≠ -1) (hk2 : kern cidx ≠ (f.clen : Int)) :
    encLoop kern (f :: rest) remaining dataOff uoff cidx log =
      .err .writeLenMismatch log remaining dataOff uoff := by
  rw [encLoop.eq_2, if_neg (by omega)]
  split
  · next a heq =>
    rw [hs] at heq
    exact Except.noConfusion heq
  · next s2 heq =>
    rw [hs] at heq
    injection heq with h2
    subst h2
    simp only [Option.getD_some]
    rw [if_neg (by omega), if_neg (by omega), if_neg (by omega),
      if_neg (by omega), if_neg hk1, if_pos hk2]

/-- Witness for claim C5: the kernel reports 3 bytes written for a frame
of compressed length 9. -/
theorem c5_ioctl_len_mismatch_witness :
    encLoop (fun _ => 3)
      [{ clen := 9, csize := .ok (some 5000), dres := .ok [] }] 20 0 0 0 [] =
      .err .writeLenMismatch [] 20 0 0 :=
  c5_ioctl_len_mismatch_no_advance (fun _ => 3)
    { clen := 9, csize := .ok (some 5000), dres := .ok [] } [] 20 0 0 0 []
    5000 (by decide) rfl (by decide) (by decide) (by decide) (by decide)
    (by decide) (by decide)

/-- Claim C6: a frame whose declared uncompressed size is below
`BTRFS_MIN_UNCOMPRESSED = 4096` (and within the other guards) is
decompressed fully in memory and its plain bytes are written at the
running uncompressed offset by one positioned write, after which the
loop continues with all accumulators advanced; the decompressed length
is checked against the declared size and a mismatch is fatal (the
`assert!` in `decompress_fallback` aborts the process). -/
theorem c6_small_frame_decompress_fallback (kern : Nat → Int) (f : FrameInfo)
    (rest : List FrameInfo) (remaining dataOff uoff cidx : Nat)
    (log : List WriteOp) (usz : Nat)
    (h0 : 0 < remaining) (hs : f.csize = .ok (some usz))
    (hc1 : f.clen ≤ remaining) (hc2 : f.clen ≤ BTRFS_MAX_COMPRESSED)
    (hu : usz < BTRFS_MIN_UNCOMPRESSED) :
    (∀ bytes, f.dres = .ok bytes → bytes.length = usz →
      encLoop kern (f :: rest) remaining dataOff uoff cidx log =
        encLoop kern rest (remaining - f.clen) (dataOff + f.clen)
          (uoff + usz) cidx (log ++ [.plainAt uoff bytes])) ∧
    (∀ bytes, f.dres = .ok bytes → bytes.length ≠ usz →
      encLoop kern (f :: rest) remaining dataOff uoff cidx log = .abort) := by
  have hmax : ¬ usz > BTRFS_MAX_UNCOMPRESSED := by
    simp only [BTRFS_MIN_UNCOMPRESSED] at hu
    simp only [BTRFS_MAX_UNCOMPRESSED]
    omega
  constructor
  · intro bytes hd hlen
    rw [encLoop.eq_2, if_neg (by omega)]
    split
    · next a heq =>
      rw [hs] at heq
      exact Except.noConfusion heq
    · next s2 heq =>
      rw [hs] at heq
      injection heq with h2
      subst h2
      simp only [Option.getD_some]
      rw [if_neg (by omega), if_neg (by omega), if_neg hmax, if_pos hu]
      split
      · next a heq2 =>
        rw [hd] at heq2
        exact Except.noConfusion heq2
      · next bytes2 heq2 =>
        rw [hd] at heq2
        injection heq2 with h3
        subst h3
        rw [if_pos hlen]
  · intro bytes hd hlen
    rw [encLoop.eq_2, if_neg (by omega)]
    split
    · next a heq =>
      rw [hs] at heq
      exact Except.noConfusion heq
    · next s2 heq =>
      rw [hs] at heq
      injection heq with h2
      subst h2
      simp only [Option.getD_some]
      rw [if_neg (by omega), if_neg (by omega), if_neg hmax, if_pos hu]
      split
      · next a heq2 =>
        rw [hd] at heq2
        exact Except.noConfusion heq2
      · next bytes2 heq2 =>
        rw [hd] at heq2
        injection heq2 with h3
        subst h3
        rw [if_neg hlen]

/-- Witness for claim C6: a frame declaring 3 uncompressed bytes, once
decompressing to exactly 3 bytes (positioned write, loop continues) and
once to 2 bytes (process abort). -/
theorem c6_small_frame_witness :
    encLoop (fun _ => -1)
      [{ clen := 9, csize := .ok (some 3), dres := .ok [1, 2, 3] }] 9 0 0 0 [] =
      encLoop (fun _ => -1) [] 0 9 3 0 [.plainAt 0 [1, 2, 3]] ∧
    encLoop (fun _ => -1)
      [{ clen := 9, csize := .ok (some 3), dres := .ok [1, 2] }] 9 0 0 0 [] =
      .abort :=
  ⟨((c6_small_frame_decompress_fallback (fun _ => -1)
      { clen := 9, csize := .ok (some 3), dres := .ok [1, 2, 3] } [] 9 0 0 0 []
      3 (by decide) rfl (by decide) (by decide) (by decide)).1
      [1, 2, 3] rfl (by decide)),
   ((c6_small_frame_decompress_fallback (fun _ => -1)
      { clen := 9, csize := .ok (some 3), dres := .ok [1, 2] } [] 9 0 0 0 []
      3 (by decide) rfl (by decide) (by decide) (by decide)).2
      [1, 2] rfl (by decide))⟩

/-- Counterexample to claim C1 as stated: a frame whose declared
uncompressed content size the codec reports as unavailable
(`get_frame_content_size` returns `Ok(None)`) does NOT make the
installer fail — the run completes successfully, treating the frame as
having declared size 0 and routing it through the decompress fallback. -/
theorem c1_unavailable_size_not_fatal_counterexample :
    encoded_copy_payload (fun _ => -1)
      { frames := [{ clen := 8, csize := .ok Option.none, dres := .ok [] }],
        buflen := 8 } =
      .ok [.plainAt 0 []] := by
  rfl

/-- Claim C1 amended: only a frame whose content-size probe itself
errors (`get_frame_content_size` returns `Err`) is a fatal
stream-integrity error, returned without processing the frame; a frame
whose content size is merely unavailable (`Ok(None)`) is not an error —
the installer continues, treating the frame exactly as if its declared
uncompressed size were 0 (which routes it to the decompress fallback). -/
theorem c1_content_size_probe (kern : Nat → Int) (f : FrameInfo)
    (rest : List FrameInfo) (remaining dataOff uoff cidx : Nat)
    (log : List WriteOp) :
    (f.csize = .error () → 0 < remaining →
      encLoop kern (f :: rest) remaining dataOff uoff cidx log =
        .err .contentSize log remaining dataOff uoff) ∧
    (f.csize = .ok Option.none →
      encLoop kern (f :: rest) remaining dataOff uoff cidx log =
        encLoop kern ({ f with csize := .ok (some 0) } :: rest)
          remaining dataOff uoff cidx log) := by
  constructor
  · intro hs h0
    rw [encLoop.eq_2, if_neg (by omega)]
    split
    · rfl
    · next s2 heq =>
      rw [hs] at heq
      exact Except.noConfusion heq
  · intro hs
    obtain ⟨clen, csize, dres⟩ := f
    simp only [] at hs
    subst hs
    rfl

/-- Witness for the amended claim C1 at concrete one-frame buffers. -/
theorem c1_content_size_probe_witness :
    encLoop (fun _ => -1)
      [{ clen := 8, csize := .error (), dres := .ok [] }] 8 0 0 0 [] =
      .err .contentSize [] 8 0 0 ∧
    encLoop (fun _ => -1)
      [{ clen := 8, csize := .ok Option.none, dres := .ok [] }] 8 0 0 0 [] =
      encLoop (fun _ => -1)
        [{ clen := 8, csize := .ok (some 0), dres := .ok [] }] 8 0 0 0 [] :=
  ⟨(c1_content_size_probe (fun _ => -1)
      { clen := 8, csize := .error (), dres := .ok [] } [] 8 0 0 0 []).1
      rfl (by decide),
   (c1_content_size_probe (fun _ => -1)
      { clen := 8, csize := .ok Option.none, dres := .ok [] } [] 8 0 0 0 []).2
      rfl⟩
